/-
  Verification development for the crondock scheduler (src/entrypoint.py).

  The embedding models the Python module shallowly:
  - Python strings become `List Char`; `str.split`, `str.strip`, `str.replace`
    and `pathlib` suffix extraction are re-implemented below.
  - The croniter library is not part of the repository; its validation and
    next-occurrence computation are modelled from the spec (section 4.1).
  - Wall-clock reads (`datetime.now()`) become explicit `Nat` parameters /
    oracle functions; instants are minutes since the Unix epoch (cron has
    minute granularity).
  - Fallible Python code (uncaught exceptions) becomes `Except String`.
-/
import Mathlib

set_option maxRecDepth 4000

namespace Crondock

/-! ## Character-list utilities (Python string operations) -/

/-- `str.split(sep)`: worker that accumulates the current chunk (reversed). -/
def splitAux (sep : Char) : List Char → List Char → List (List Char)
  | [], acc => [acc.reverse]
  | c :: cs, acc =>
    if c = sep then acc.reverse :: splitAux sep cs []
    else splitAux sep cs (c :: acc)

/-- Python `value.split(sep)`: always returns at least one chunk. -/
def splitOnChar (sep : Char) (cs : List Char) : List (List Char) :=
  splitAux sep cs []

/-- Python `str.strip()` restricted to spaces. -/
def trimChars (cs : List Char) : List Char :=
  ((cs.dropWhile (fun c => c = ' ')).reverse.dropWhile (fun c => c = ' ')).reverse

/-- Whether the first list is an initial segment of the second
(Python `str.startswith`). -/
def isInitSeg : List Char → List Char → Bool
  | [], _ => true
  | _ :: _, [] => false
  | p :: ps, c :: cs => p == c && isInitSeg ps cs

/-- Scanning worker for `replaceAll`; the fuel (at least the length of the
remaining text) keeps the recursion structural.  At a match the matched
`pat.length` characters are consumed and `repl` emitted; otherwise one
character is copied. -/
def replaceAllAux (pat repl : List Char) : Nat → List Char → List Char
  | _, [] => []
  | 0, cs => cs
  | fuel + 1, c :: rest =>
    if isInitSeg pat (c :: rest) then
      repl ++ replaceAllAux pat repl fuel (rest.drop (pat.length - 1))
    else
      c :: replaceAllAux pat repl fuel rest

/-- Python `str.replace(pat, repl)` (leftmost, non-overlapping, all
occurrences); an empty pattern leaves the string unchanged (the source only
uses the nonempty scripts-directory pattern). -/
def replaceAll (pat repl cs : List Char) : List Char :=
  match pat with
  | [] => cs
  | _ :: _ => replaceAllAux pat repl cs.length cs

/-- Numeric value of a decimal digit character. -/
def digitVal (c : Char) : Option Nat :=
  if '0' ≤ c ∧ c ≤ '9' then some (c.toNat - '0'.toNat) else none

def parseNatAux : List Char → Nat → Option Nat
  | [], acc => some acc
  | c :: cs, acc =>
    match digitVal c with
    | some d => parseNatAux cs (acc * 10 + d)
    | none => none

/-- Parse a nonempty all-digit chunk as a natural number. -/
def parseNatChars : List Char → Option Nat
  | [] => none
  | cs => parseNatAux cs 0

/-! ## Cron expressions

The croniter library is external to the repository, so the evaluator is
modelled from the spec: a cron expression has five fields
(minute, hour, day-of-month, month, day-of-week), each a literal, `*`,
step, range, or list, with per-field legal ranges; an expression denotes,
per field, the set of accepted values. -/

/-- All naturals from `lo` to `hi` inclusive. -/
def natRange (lo hi : Nat) : List Nat :=
  (List.range (hi + 1 - lo)).map (fun k => lo + k)

/-- The values `lo, lo+s, lo+2s, ...` up to `hi`. -/
def stepVals (lo hi s : Nat) : List Nat :=
  (natRange lo hi).filter (fun v => (v - lo) % s == 0)

/-- Modelled from the spec: one base item of a cron field (`*`, a literal,
or a range), expanded to its value set; `step` is an optional `/n` step. -/
def parseBase (lo hi : Nat) (step : Option Nat) (cs : List Char) : Option (List Nat) :=
  if cs = ['*'] then some (stepVals lo hi (step.getD 1))
  else
    match splitOnChar '-' cs with
    | [v] =>
      match parseNatChars v with
      | some n =>
        if lo ≤ n ∧ n ≤ hi then
          match step with
          | none => some [n]
          | some s => some (stepVals n hi s)
        else none
      | none => none
    | [a, b] =>
      match parseNatChars a, parseNatChars b with
      | some x, some y =>
        if lo ≤ x ∧ x ≤ y ∧ y ≤ hi then some (stepVals x y (step.getD 1)) else none
      | _, _ => none
    | _ => none

/-- Modelled from the spec: one comma-separated item, possibly with `/step`. -/
def parseItem (lo hi : Nat) (cs : List Char) : Option (List Nat) :=
  match splitOnChar '/' cs with
  | [base] => parseBase lo hi none base
  | [base, stepPart] =>
    match parseNatChars stepPart with
    | some s => if s = 0 then none else parseBase lo hi (some s) base
    | none => none
  | _ => none

/-- Modelled from the spec: a whole cron field (comma-separated list of
items), expanded to the set of accepted values. -/
def parseField (lo hi : Nat) (cs : List Char) : Option (List Nat) :=
  (splitOnChar ',' cs).foldr
    (fun item acc =>
      match parseItem lo hi item, acc with
      | some vs, some rest => some (vs ++ rest)
      | _, _ => none)
    (some [])

/-- A validated cron expression: the accepted values of each of the five
fields, fully expanded. -/
structure CronExpr where
  minutes : List Nat
  hours : List Nat
  dom : List Nat
  months : List Nat
  dow : List Nat
deriving DecidableEq, Repr

/-- Modelled from the spec: croniter expression validation/parsing (the
croniter library is not in the repository).  Splits on whitespace, requires
exactly five fields, checks per-field legal ranges (minute 0-59, hour 0-23,
day-of-month 1-31, month 1-12, day-of-week 0-7 with 7 = Sunday = 0). -/
def parseCronExpr (cs : List Char) : Option CronExpr :=
  match (splitOnChar ' ' (trimChars cs)).filter (fun p => !p.isEmpty) with
  | [f1, f2, f3, f4, f5] =>
    match parseField 0 59 f1, parseField 0 23 f2, parseField 1 31 f3,
        parseField 1 12 f4, parseField 0 7 f5 with
    | some mi, some ho, some da, some mo, some dw => some ⟨mi, ho, da, mo, dw⟩
    | _, _, _, _, _ => none
  | _ => none

/-! ## Calendar: minutes since the Unix epoch to civil date fields. -/

/-- Gregorian civil date `(year, month, day)` from days since 1970-01-01
(Hinnant's `civil_from_days`, restricted to nonnegative day counts). -/
def civilFromDays (z : Nat) : Nat × Nat × Nat :=
  let z' := z + 719468
  let era := z' / 146097
  let doe := z' % 146097
  let yoe := (doe - doe / 1460 + doe / 36524 - doe / 146096) / 365
  let y := yoe + era * 400
  let doy := doe - (365 * yoe + yoe / 4 - yoe / 100)
  let mp := (5 * doy + 2) / 153
  let d := doy - (153 * mp + 2) / 5 + 1
  let m := if mp < 10 then mp + 3 else mp - 9
  (if m ≤ 2 then y + 1 else y, m, d)

def minuteOf (t : Nat) : Nat := t % 60
def hourOf (t : Nat) : Nat := t / 60 % 24
def daysOf (t : Nat) : Nat := t / 1440
/-- Day of week, 0 = Sunday (1970-01-01 was a Thursday). -/
def dowOf (t : Nat) : Nat := (daysOf t + 4) % 7
def monthOf (t : Nat) : Nat := (civilFromDays (daysOf t)).2.1
def domOf (t : Nat) : Nat := (civilFromDays (daysOf t)).2.2

/-- Modelled from the spec: wall-clock matching of an instant against every
field constraint of a cron expression (day-of-week values taken mod 7 so
that 7 means Sunday). -/
def cronMatches (e : CronExpr) (t : Nat) : Bool :=
  e.minutes.contains (minuteOf t) && e.hours.contains (hourOf t) &&
    e.dom.contains (domOf t) && e.months.contains (monthOf t) &&
    e.dow.any (fun v => v % 7 == dowOf t)

/-- Bounded linear search for the first matching instant at or after `t`. -/
def findNext (e : CronExpr) : Nat → Nat → Option Nat
  | 0, _ => none
  | fuel + 1, t => if cronMatches e t then some t else findNext e fuel (t + 1)

/-- Search horizon: nine years of minutes (croniter likewise gives up after
a bounded number of years between matches). -/
def searchLimit : Nat := 1440 * 366 * 9

/-- Modelled from the spec: croniter's next-occurrence computation — the
earliest instant strictly greater than `a` satisfying the expression;
`none` when no occurrence exists within the search horizon (croniter
raises `CroniterBadDateError` there). -/
def nextOccurrence (e : CronExpr) (a : Nat) : Option Nat :=
  findNext e searchLimit (a + 1)

/-- `convert_cron_to_timestamp` (src/entrypoint.py:39-51): the wall-clock
read `datetime.now()` inside the Python function is the explicit `now`
parameter; croniter parse/search errors surface as `none`. -/
def convert_cron_to_timestamp (expr : List Char) (now : Nat) : Option Nat :=
  match parseCronExpr expr with
  | some e => nextOccurrence e now
  | none => none

/-- `is_valid_cron` (src/entrypoint.py:54-68). -/
def is_valid_cron (expr : List Char) : Bool :=
  (parseCronExpr expr).isSome

/-! ## Job model and environment parsing -/

/-- One entry of the `cron_jobs` list built by `load_cron_jobs`
(src/entrypoint.py:166-172). -/
structure Job where
  script_path_full : List Char
  script_path_relative : List Char
  parameters : List (List Char)
  cron_expression : List Char
  next_execution_timestamp : Nat
deriving DecidableEq, Repr

/-- Result of `parse_cron_env_variable` (src/entrypoint.py:84-102). -/
structure JobInfo where
  cron_expression : Option (List Char)
  script_path_full : Option (List Char)
  parameters : List (List Char)
deriving DecidableEq, Repr

/-- `parse_cron_env_variable` (src/entrypoint.py:84-102): split the value on
`!`; chunk 0 is the cron expression, chunk 1 the script path, chunk 2 the
whitespace-separated parameters; a missing chunk gives `None` (empty list
for the parameters). -/
def parse_cron_env_variable (env_value : List Char) : JobInfo :=
  let parts := splitOnChar '!' env_value
  { cron_expression := (parts.get? 0).map trimChars
    script_path_full := (parts.get? 1).map trimChars
    parameters :=
      match parts.get? 2 with
      | some p => (splitOnChar ' ' (trimChars p)).filter (fun w => !w.isEmpty)
      | none => [] }

def rsCronKey : List Char := "RS_CRON_".data
def codeScriptsPat : List Char := "/code/scripts/".data
def dotDotSlash : List Char := "../".data

/-- Python `AttributeError` raised by `None.replace(...)`. -/
def attrErr : String := "AttributeError"
/-- Python `TypeError` from passing `None` where a str is required. -/
def typeErr : String := "TypeError"
/-- croniter's failure to find a next date (uncaught where `get_next` is
called). -/
def croniterErr : String := "CroniterBadDateError"

/-- `load_cron_jobs` (src/entrypoint.py:134-174).  The environment is the
explicit association list `env`; `fresh i` is the `datetime.now()` sample
taken while handling entry `i`.  Mirrors the source exactly: the relative
path is computed by `.replace` on `script_path_full` *before* the validity
check (crashing with `AttributeError` when the path is `None`), and a
definition with an empty relative path or an invalid cron expression is
skipped, not fatal. -/
def load_cron_jobs (fresh : Nat → Nat) : Nat → List (List Char × List Char) → Except String (List Job)
  | _, [] => Except.ok []
  | i, (envKey, envValue) :: rest =>
    if isInitSeg rsCronKey envKey then
      let ji := parse_cron_env_variable envValue
      match ji.cron_expression with
      | none => Except.error typeErr
      | some cronE =>
        match ji.script_path_full with
        | none => Except.error attrErr
        | some spf =>
          let rel := replaceAll codeScriptsPat dotDotSlash spf
          if rel.isEmpty || !is_valid_cron cronE then
            load_cron_jobs fresh (i + 1) rest
          else
            match convert_cron_to_timestamp cronE (fresh i) with
            | none => Except.error croniterErr
            | some ts =>
              match load_cron_jobs fresh (i + 1) rest with
              | Except.error e => Except.error e
              | Except.ok restJobs =>
                Except.ok (⟨spf, rel, ji.parameters, cronE, ts⟩ :: restJobs)
    else load_cron_jobs fresh (i + 1) rest

/-! ## Dispatch (`run_script`) -/

/-- `EXTENSION_MAP` (src/entrypoint.py:22-26). -/
def EXTENSION_MAP : List (List Char × List (List Char)) :=
  [(".sh".data, ["/bin/bash".data]),
   (".pl".data, ["perl".data]),
   (".py".data, ["python3".data])]

/-- `pathlib.Path(p).suffix`: the extension (with dot) of the final path
component; empty when there is no dot or only a leading dot. -/
def suffixOf (p : List Char) : List Char :=
  let base := ((splitOnChar '/' p).getLast?).getD []
  match base with
  | [] => []
  | b0 :: brest =>
    let core := if b0 = '.' then brest else b0 :: brest
    match splitOnChar '.' core with
    | [_] => []
    | parts =>
      match parts.getLast? with
      | some l => if l.isEmpty then [] else '.' :: l
      | none => []

/-- One line of the log stream, tagged with its level. -/
inductive LogEntry
  | info (msg : List Char)
  | err (msg : List Char)
deriving DecidableEq, Repr

/-- The observable side effects of the process: the log stream and the
spawned subprocess command lines, in order. -/
structure World where
  logs : List LogEntry
  spawned : List (List (List Char))
deriving DecidableEq, Repr

/-- Python `" ".join(parameters)`. -/
def joinSpaces : List (List Char) → List Char
  | [] => []
  | [w] => w
  | w :: ws => w ++ (' ' :: joinSpaces ws)

/-- `run_script` (src/entrypoint.py:105-131).  `fileExists` is the
filesystem oracle for `Path.exists()`; the function only appends to the
log and spawn streams and always returns (every Python control path falls
through without raising). -/
def run_script (fileExists : List Char → Bool) (script_path_relative script_path_full : List Char)
    (parameters : List (List Char)) (w : World) : World :=
  if fileExists script_path_full then
    let command :=
      match EXTENSION_MAP.find? (fun kv => kv.1 == suffixOf script_path_full) with
      | some kv => kv.2 ++ [script_path_full] ++ parameters
      | none => []
    if !command.isEmpty && !parameters.isEmpty then
      { logs := w.logs ++ [LogEntry.info ("Running script: ".data ++ script_path_relative
          ++ " with parameters: ".data ++ joinSpaces parameters)]
        spawned := w.spawned ++ [command] }
    else if !command.isEmpty then
      { logs := w.logs ++ [LogEntry.info ("Running script: ".data ++ script_path_relative)]
        spawned := w.spawned ++ [command] }
    else
      { logs := w.logs ++ [LogEntry.err ("Unsupported script extension for script: ".data
          ++ script_path_relative)]
        spawned := w.spawned }
  else
    { logs := w.logs ++ [LogEntry.err ("Script not found: ".data ++ script_path_relative)]
      spawned := w.spawned }

/-! ## The scheduler loop (`execute_cron_jobs`) -/

/-- The body of the `for job in cron_jobs` loop (src/entrypoint.py:194-206)
for one job: when `current >= next_execution_timestamp` the job is
dispatched (flag `true`) and its next due time is recomputed by
`convert_cron_to_timestamp` from the fresh `datetime.now()` sample
`fresh`; an exhausted croniter search raises (Except.error). -/
def stepJob (current fresh : Nat) (j : Job) : Except String (Job × Bool) :=
  if j.next_execution_timestamp ≤ current then
    match convert_cron_to_timestamp j.cron_expression fresh with
    | some u => Except.ok ({ j with next_execution_timestamp := u }, true)
    | none => Except.error croniterErr
  else Except.ok (j, false)

/-- The whole `for job in cron_jobs` scan of one wake cycle; `fresh i` is
the `datetime.now()` sample used if job `i` is dispatched. -/
def stepJobs (current : Nat) (fresh : Nat → Nat) : Nat → List Job → Except String (List (Job × Bool))
  | _, [] => Except.ok []
  | i, j :: rest =>
    match stepJob current (fresh i) j with
    | Except.error e => Except.error e
    | Except.ok jb =>
      match stepJobs current fresh (i + 1) rest with
      | Except.error e => Except.error e
      | Except.ok rest' => Except.ok (jb :: rest')

/-- `min(job["next_execution_timestamp"] for job in cron_jobs)`
(src/entrypoint.py:209); Python `min` of an empty sequence raises. -/
def minNextDue : List Job → Option Nat
  | [] => none
  | j :: rest =>
    some (rest.foldl (fun a jj => min a jj.next_execution_timestamp)
      j.next_execution_timestamp)

/-- The observable outcome of one wake cycle: the per-job verdicts (updated
job, dispatched flag) in registry order, and the argument passed to
`sleep` (already clamped by `max(0, ...)`, src/entrypoint.py:211). -/
structure CycleResult where
  pairs : List (Job × Bool)
  sleep_duration : Int
deriving DecidableEq, Repr

/-- A dispatch event: the argument triple of `executor.submit(run_script, ...)`
(src/entrypoint.py:199). -/
structure DispatchEv where
  script_path_relative : List Char
  script_path_full : List Char
  parameters : List (List Char)
deriving DecidableEq, Repr

def evOf (j : Job) : DispatchEv :=
  ⟨j.script_path_relative, j.script_path_full, j.parameters⟩

/-- The dispatch events of a cycle, in registry order. -/
def dispatchEvents (pairs : List (Job × Bool)) : List DispatchEv :=
  (pairs.filter (fun p => p.2)).map (fun p => evOf p.1)

/-- One iteration of the `while True` loop (src/entrypoint.py:191-211):
`current` is the `datetime.now()` sample taken at the top of the cycle
(line 192); `fresh i` the sample inside `convert_cron_to_timestamp` when
job `i` is dispatched.  The sleep argument is
`max(0, min_next_due_after_dispatching - current)` — `current`, not a
re-read clock. -/
def cycleStep (current : Nat) (fresh : Nat → Nat) (jobs : List Job) : Except String CycleResult :=
  match stepJobs current fresh 0 jobs with
  | Except.error e => Except.error e
  | Except.ok pairs =>
    match minNextDue (pairs.map Prod.fst) with
    | none => Except.error "ValueError"
    | some nxt => Except.ok ⟨pairs, max 0 ((nxt : Int) - (current : Int))⟩

/-- One wake cycle together with its dispatch side effects: the submitted
`run_script` calls run against the filesystem oracle and append to the
world.  The scheduler state (`CycleResult`) is computed first and never
reads the world or the oracle. -/
def cycleStepFull (fileExists : List Char → Bool) (current : Nat) (fresh : Nat → Nat)
    (jobs : List Job) (w : World) : Except String (CycleResult × World) :=
  match cycleStep current fresh jobs with
  | Except.error e => Except.error e
  | Except.ok r =>
    Except.ok (r, (dispatchEvents r.pairs).foldl
      (fun wa ev => run_script (fun p => fileExists p) ev.script_path_relative
        ev.script_path_full ev.parameters wa) w)

/-! ## Shutdown and the whole process -/

/-- `signal_handler` (src/entrypoint.py:34-36): logs the event and calls
`sys.exit(1)`; the second component is the process exit code. -/
def signal_handler (_signum : Nat) : LogEntry × Nat :=
  (LogEntry.info "Received signal. Exiting gracefully...".data, 1)

/-- Outcome of a bounded run of the `while True` loop. -/
structure LoopResult where
  exitCode : Option Nat
  dispatched : List DispatchEv
  jobs : List Job
  now : Nat
deriving DecidableEq, Repr

/-- The scheduler loop under an idealized clock (each sleep is exact and
cycles take no time: every `datetime.now()` inside a cycle returns the
cycle's start instant).  `sigAt = some c` delivers the termination signal
during the sleep of the `c`-th remaining cycle, upon which
`signal_handler` exits the process (code 1) with no further dispatches;
`fuel` bounds the unrolling of the infinite loop. -/
def runLoop : Nat → Option Nat → Nat → List Job → Except String LoopResult
  | 0, _, now, jobs => Except.ok ⟨none, [], jobs, now⟩
  | fuel + 1, sigAt, now, jobs =>
    match cycleStep now (fun _ => now) jobs with
    | Except.error e => Except.error e
    | Except.ok r =>
      let evs := dispatchEvents r.pairs
      let jobs' := r.pairs.map Prod.fst
      match sigAt with
      | some 0 => Except.ok ⟨some (signal_handler 15).2, evs, jobs', now⟩
      | some (c + 1) =>
        match runLoop fuel (some c) (now + r.sleep_duration.toNat) jobs' with
        | Except.error e => Except.error e
        | Except.ok rest =>
          Except.ok ⟨rest.exitCode, evs ++ rest.dispatched, rest.jobs, rest.now⟩
      | none =>
        match runLoop fuel none (now + r.sleep_duration.toNat) jobs' with
        | Except.error e => Except.error e
        | Except.ok rest =>
          Except.ok ⟨rest.exitCode, evs ++ rest.dispatched, rest.jobs, rest.now⟩

/-- The startup decision of the `__main__` block (src/entrypoint.py:228-235). -/
inductive MainOutcome
  | crashed (msg : String)
  | exited (code : Nat)
  | enteredLoop (jobs : List Job)
deriving DecidableEq, Repr

/-- `__main__` (src/entrypoint.py:228-235): load the jobs; an empty result
exits with code 1, a nonempty one enters `execute_cron_jobs`; an uncaught
exception crashes. -/
def mainStart (fresh : Nat → Nat) (env : List (List Char × List Char)) : MainOutcome :=
  match load_cron_jobs fresh 0 env with
  | Except.error m => MainOutcome.crashed m
  | Except.ok [] => MainOutcome.exited 1
  | Except.ok (j :: js) => MainOutcome.enteredLoop (j :: js)

/-- Decidable equality for `Except`, so that concrete runs of the embedded
functions can be checked by `decide`. -/
instance exceptDecEq {ε α : Type} [DecidableEq ε] [DecidableEq α] :
    DecidableEq (Except ε α) := fun x y =>
  match x, y with
  | Except.ok a, Except.ok b =>
    if h : a = b then isTrue (congrArg Except.ok h)
    else isFalse (fun hh => h (Except.ok.inj hh))
  | Except.error a, Except.error b =>
    if h : a = b then isTrue (congrArg Except.error h)
    else isFalse (fun hh => h (Except.error.inj hh))
  | Except.ok _, Except.error _ => isFalse (fun hh => Except.noConfusion hh)
  | Except.error _, Except.ok _ => isFalse (fun hh => Except.noConfusion hh)

/-- The spec's sleep formula (claim C4's wording): `max(0, next_due - now())`
with `now()` read at the moment the sleep duration is computed.  Stated
from the spec's words for comparison with `cycleStep`'s actual formula. -/
def spec_sleep_duration (next_due now_at_sleep : Nat) : Int :=
  max 0 ((next_due : Int) - (now_at_sleep : Int))

/-! ## Concrete inputs used by the witnesses and counterexamples -/

def everyMinute : List Char := "* * * * *".data

/-- The expanded form of the every-minute expression. -/
def cronExprAll : CronExpr :=
  ⟨natRange 0 59, natRange 0 23, natRange 1 31, natRange 1 12, natRange 0 7⟩

def jobShA : Job := ⟨"/code/scripts/a.sh".data, "../a.sh".data, [], everyMinute, 100⟩
def jobT1 : Job := ⟨"/code/scripts/a.sh".data, "../a.sh".data, [], everyMinute, 10⟩
def jobT2 : Job := ⟨"/code/scripts/b.sh".data, "../b.sh".data, [], everyMinute, 20⟩

/-- An environment with one invalid-cron definition (minute field 70 is out
of range) followed by one valid definition. -/
def envMixed : List (List Char × List Char) :=
  [("RS_CRON_A".data, "70 * * * *!/code/scripts/a.sh".data),
   ("RS_CRON_B".data, "* * * * *!/code/scripts/b.sh".data)]

/-- The job that loading `envMixed` at clock 50 produces. -/
def jobB51 : Job := ⟨"/code/scripts/b.sh".data, "../b.sh".data, [], everyMinute, 51⟩

/-- An `RS_CRON_` value with no `!` separator. -/
def noSepValue : List Char := "* * * * * /code/scripts/x.sh".data

/-! ## Helper lemmas -/

theorem findNext_some (e : CronExpr) :
    ∀ fuel t u, findNext e fuel t = some u → t ≤ u ∧ cronMatches e u = true := by
  intro fuel
  induction fuel with
  | zero => intro t u h; simp [findNext] at h
  | succ n ih =>
    intro t u h
    rw [findNext] at h
    by_cases hm : cronMatches e t = true
    · rw [if_pos hm] at h
      injection h with h
      subst h
      exact ⟨Nat.le_refl _, hm⟩
    · rw [if_neg hm] at h
      have h2 := ih (t + 1) u h
      exact ⟨by omega, h2.2⟩

theorem nextOccurrence_some (e : CronExpr) (a u : Nat)
    (h : nextOccurrence e a = some u) : a < u ∧ cronMatches e u = true := by
  have h2 := findNext_some e searchLimit (a + 1) u h
  exact ⟨by omega, h2.2⟩

theorem convert_some (expr : List Char) (now u : Nat)
    (h : convert_cron_to_timestamp expr now = some u) :
    now < u ∧ ∃ e, parseCronExpr expr = some e ∧ nextOccurrence e now = some u := by
  unfold convert_cron_to_timestamp at h
  split at h
  · rename_i e he
    exact ⟨(nextOccurrence_some e now u h).1, e, he, h⟩
  · simp at h

theorem stepJob_ok_true (current f : Nat) (j j' : Job)
    (h : stepJob current f j = Except.ok (j', true)) :
    j.next_execution_timestamp ≤ current ∧
      convert_cron_to_timestamp j.cron_expression f = some j'.next_execution_timestamp ∧
      j' = { j with next_execution_timestamp := j'.next_execution_timestamp } := by
  unfold stepJob at h
  split at h
  · rename_i hdue
    split at h
    · rename_i u hc
      injection h with h
      injection h with h1 _
      subst h1
      exact ⟨hdue, hc, rfl⟩
    · exact absurd h (by simp)
  · rename_i hdue
    injection h with h
    injection h with _ h2
    exact absurd h2 (by simp)

theorem stepJob_ok_false (current f : Nat) (j j' : Job)
    (h : stepJob current f j = Except.ok (j', false)) :
    j' = j ∧ ¬ j.next_execution_timestamp ≤ current := by
  unfold stepJob at h
  split at h
  · rename_i hdue
    split at h
    · injection h with h
      injection h with _ h2
      exact absurd h2.symm (by simp)
    · exact absurd h (by simp)
  · rename_i hdue
    injection h with h
    injection h with h1 _
    exact ⟨h1.symm, hdue⟩

theorem stepJob_flag (current f : Nat) (j j' : Job) (b : Bool)
    (h : stepJob current f j = Except.ok (j', b)) :
    b = true ↔ j.next_execution_timestamp ≤ current := by
  cases b with
  | true => simp [(stepJob_ok_true current f j j' h).1]
  | false =>
    simp only [Bool.false_eq_true, false_iff]
    exact (stepJob_ok_false current f j j' h).2

theorem stepJob_due (current f : Nat) (j : Job) (u : Nat)
    (hdue : j.next_execution_timestamp ≤ current)
    (hc : convert_cron_to_timestamp j.cron_expression f = some u) :
    stepJob current f j = Except.ok ({ j with next_execution_timestamp := u }, true) := by
  unfold stepJob
  rw [if_pos hdue, hc]

theorem stepJob_not_due (current f : Nat) (j : Job)
    (hdue : ¬ j.next_execution_timestamp ≤ current) :
    stepJob current f j = Except.ok (j, false) := by
  unfold stepJob
  rw [if_neg hdue]

theorem stepJobs_spec (current : Nat) (fresh : Nat → Nat) :
    ∀ (jobs : List Job) (i : Nat) (ps : List (Job × Bool)),
      stepJobs current fresh i jobs = Except.ok ps →
      ps.length = jobs.length ∧
        ∀ k (hk : k < jobs.length) (hk' : k < ps.length),
          stepJob current (fresh (i + k)) (jobs.get ⟨k, hk⟩) = Except.ok (ps.get ⟨k, hk'⟩) := by
  intro jobs
  induction jobs with
  | nil =>
    intro i ps h
    injection h with h
    subst h
    exact ⟨rfl, fun k hk _ => absurd hk (by simp)⟩
  | cons j rest ih =>
    intro i ps h
    unfold stepJobs at h
    split at h
    · exact absurd h (by simp)
    · rename_i jb hjb
      split at h
      · exact absurd h (by simp)
      · rename_i rest' hrest
        injection h with h
        subst h
        have ihr := ih (i + 1) rest' hrest
        refine ⟨by simp [ihr.1], ?_⟩
        intro k hk hk'
        cases k with
        | zero => simpa using hjb
        | succ m =>
          have hm : m < rest.length := by simpa using hk
          have hm' : m < rest'.length := by simpa using hk'
          have := ihr.2 m hm hm'
          simpa [Nat.add_comm, Nat.add_assoc, Nat.add_left_comm] using this

theorem stepJobs_count (current : Nat) (fresh : Nat → Nat) :
    ∀ (jobs : List Job) (i : Nat) (ps : List (Job × Bool)),
      stepJobs current fresh i jobs = Except.ok ps →
      (ps.filter (fun p => p.2)).length =
        (jobs.filter (fun j => decide (j.next_execution_timestamp ≤ current))).length := by
  intro jobs
  induction jobs with
  | nil =>
    intro i ps h
    injection h with h
    subst h
    rfl
  | cons j rest ih =>
    intro i ps h
    unfold stepJobs at h
    split at h
    · exact absurd h (by simp)
    · rename_i jb hjb
      split at h
      · exact absurd h (by simp)
      · rename_i rest' hrest
        injection h with h
        subst h
        have ihr := ih (i + 1) rest' hrest
        rcases jb with ⟨j', b⟩
        cases b with
        | true =>
          have hd := (stepJob_flag current (fresh i) j j' true hjb).1 rfl
          simp [List.filter, hd, ihr]
        | false =>
          have hd := (stepJob_ok_false current (fresh i) j j' hjb).2
          simp [List.filter, hd, ihr]

theorem cycleStep_ok (current : Nat) (fresh : Nat → Nat) (jobs : List Job) (r : CycleResult)
    (h : cycleStep current fresh jobs = Except.ok r) :
    stepJobs current fresh 0 jobs = Except.ok r.pairs ∧
      ∃ nxt, minNextDue (r.pairs.map Prod.fst) = some nxt ∧
        r.sleep_duration = max 0 ((nxt : Int) - (current : Int)) := by
  unfold cycleStep at h
  split at h
  · exact absurd h (by simp)
  · rename_i ps hps
    split at h
    · exact absurd h (by simp)
    · rename_i nxt hnxt
      injection h with h
      subst h
      exact ⟨hps, nxt, hnxt, rfl⟩

/-! ## Claim theorems -/

/-- C3: for every valid cron expression (any `CronExpr` produced by the
validator) and every instant `a`, when the next-occurrence computation
returns an instant `u`, then `u` is strictly greater than `a` and satisfies
every one of the five field constraints of the expression; it never returns
a value less than or equal to `a`. -/
theorem c3_next_occurrence_strictly_future (e : CronExpr) (a u : Nat)
    (h : nextOccurrence e a = some u) :
    a < u ∧ e.minutes.contains (minuteOf u) = true ∧
      e.hours.contains (hourOf u) = true ∧
      e.dom.contains (domOf u) = true ∧
      e.months.contains (monthOf u) = true ∧
      e.dow.any (fun v => v % 7 == dowOf u) = true := by
  have h2 := nextOccurrence_some e a u h
  have hm := h2.2
  unfold cronMatches at hm
  simp only [Bool.and_eq_true] at hm
  exact ⟨h2.1, hm.1.1.1.1, hm.1.1.1.2, hm.1.1.2, hm.1.2, hm.2⟩

/-- Witness for C3 at the every-minute expression and instant 0. -/
theorem c3_witness :
    0 < 1 ∧ cronExprAll.minutes.contains (minuteOf 1) = true ∧
      cronExprAll.hours.contains (hourOf 1) = true ∧
      cronExprAll.dom.contains (domOf 1) = true ∧
      cronExprAll.months.contains (monthOf 1) = true ∧
      cronExprAll.dow.any (fun v => v % 7 == dowOf 1) = true :=
  c3_next_occurrence_strictly_future cronExprAll 0 1 (by decide)

/-- C6: the next-occurrence computation is a pure function of the
expression and the instant it is given (the wall-clock read inside the
Python wrapper is that instant): two calls with the same pair always
return the same result — there is no hidden state in the embedding, whose
definitions are plain functions with no effects. -/
theorem c6_convert_deterministic (expr : List Char) (a : Nat) (r1 r2 : Option Nat)
    (h1 : convert_cron_to_timestamp expr a = r1)
    (h2 : convert_cron_to_timestamp expr a = r2) : r1 = r2 :=
  h1.symm.trans h2

/-- Witness for C6 at the every-minute expression and instant 50. -/
theorem c6_witness :
    (some 51 : Option Nat) = some 51 ∧
      convert_cron_to_timestamp everyMinute 50 = some 51 :=
  ⟨c6_convert_deterministic everyMinute 50 (some 51) (some 51) (by decide) (by decide),
   by decide⟩

/-- C1: in a wake cycle each job gets exactly one dispatch verdict, the
number of dispatch events equals the number of due jobs (one firing per
overdue job, however many occurrences were missed), and every dispatched
job's next-due timestamp is recomputed from the fresh `datetime.now()`
sample of that dispatch, is strictly greater than that sample, and does not
depend on the job's stale due time. -/
theorem c1_fresh_recompute_no_backlog (current : Nat) (fresh : Nat → Nat)
    (jobs : List Job) (r : CycleResult)
    (h : cycleStep current fresh jobs = Except.ok r) :
    r.pairs.length = jobs.length ∧
      (dispatchEvents r.pairs).length =
        (jobs.filter (fun j => decide (j.next_execution_timestamp ≤ current))).length ∧
      ∀ k (hk : k < jobs.length) (hk' : k < r.pairs.length),
        (r.pairs.get ⟨k, hk'⟩).2 = true →
          convert_cron_to_timestamp (jobs.get ⟨k, hk⟩).cron_expression (fresh k)
              = some ((r.pairs.get ⟨k, hk'⟩).1.next_execution_timestamp) ∧
            fresh k < (r.pairs.get ⟨k, hk'⟩).1.next_execution_timestamp ∧
            ∀ stale j' b, stale ≤ current →
              stepJob current (fresh k)
                  { jobs.get ⟨k, hk⟩ with next_execution_timestamp := stale }
                = Except.ok (j', b) →
              b = true ∧
                j'.next_execution_timestamp
                  = (r.pairs.get ⟨k, hk'⟩).1.next_execution_timestamp := by
  obtain ⟨hsteps, -⟩ := cycleStep_ok current fresh jobs r h
  obtain ⟨hlen, hpt⟩ := stepJobs_spec current fresh jobs 0 r.pairs hsteps
  have hcount := stepJobs_count current fresh jobs 0 r.pairs hsteps
  refine ⟨hlen, ?_, ?_⟩
  · simpa [dispatchEvents] using hcount
  · intro k hk hk' hflag
    have hstep := hpt k hk hk'
    rw [Nat.zero_add] at hstep
    rcases hget : r.pairs.get ⟨k, hk'⟩ with ⟨j', b⟩
    rw [hget] at hstep hflag
    simp only at hflag
    subst hflag
    obtain ⟨hdue, hconv, hj'⟩ := stepJob_ok_true current (fresh k) _ j' hstep
    refine ⟨by simpa [hget] using hconv, ?_, ?_⟩
    · have hlt := (convert_some _ _ _ hconv).1
      simpa [hget] using hlt
    · intro stale j'' b'' hstale hstep2
      have hs := stepJob_due current (fresh k)
        { jobs.get ⟨k, hk⟩ with next_execution_timestamp := stale }
        j'.next_execution_timestamp (by simpa using hstale) (by simpa using hconv)
      rw [hstep2] at hs
      injection hs with hs
      injection hs with hs1 hs2
      subst hs2
      refine ⟨rfl, ?_⟩
      rw [hs1]

/-- Witness for C1 at a cycle with one overdue job. -/
theorem c1_witness :
    (CycleResult.mk [({ jobShA with next_execution_timestamp := 161 }, true)] 61).pairs.length
        = [jobShA].length ∧
      (dispatchEvents (CycleResult.mk
          [({ jobShA with next_execution_timestamp := 161 }, true)] 61).pairs).length =
        ([jobShA].filter (fun j => decide (j.next_execution_timestamp ≤ 100))).length :=
  ⟨(c1_fresh_recompute_no_backlog 100 (fun _ => 160) [jobShA] _ (by decide)).1,
   (c1_fresh_recompute_no_backlog 100 (fun _ => 160) [jobShA] _ (by decide)).2.1⟩

/-- C4 (amended): in every cycle the loop sleeps for exactly
`max(0, next_due - t_cycle)` where `next_due` is the minimum of all jobs'
next-due timestamps after dispatching and `t_cycle` is the clock sample
taken at the start of the wake cycle, before dispatching (not a clock read
at the moment the sleep duration is computed); the sleep duration is never
negative. -/
theorem c4_sleep_uses_cycle_start (current : Nat) (fresh : Nat → Nat) (jobs : List Job)
    (r : CycleResult) (nxt : Nat)
    (h : cycleStep current fresh jobs = Except.ok r)
    (hm : minNextDue (r.pairs.map Prod.fst) = some nxt) :
    r.sleep_duration = max 0 ((nxt : Int) - (current : Int)) ∧ 0 ≤ r.sleep_duration := by
  obtain ⟨-, nxt', hm', hs⟩ := cycleStep_ok current fresh jobs r h
  rw [hm'] at hm
  injection hm with hm
  subst hm
  exact ⟨hs, by rw [hs]; exact le_max_left _ _⟩

/-- Witness for C4 (amended) at a cycle with one overdue job. -/
theorem c4_witness :
    (CycleResult.mk [({ jobShA with next_execution_timestamp := 161 }, true)] 61).sleep_duration
        = max 0 ((161 : Int) - (100 : Int)) ∧
      0 ≤ (CycleResult.mk
        [({ jobShA with next_execution_timestamp := 161 }, true)] 61).sleep_duration :=
  c4_sleep_uses_cycle_start 100 (fun _ => 160) [jobShA] _ 161 (by decide) (by decide)

/-- C4 counterexample: a cycle starting at minute 100 dispatches the job
due at 100; the fresh clock sample during the recompute is 160 (a whole
minute has passed inside the cycle) and the new next-due is 161.  The code
sleeps for `max(0, 161 - 100) = 61` (it reuses the cycle-start sample from
line 192), while the claim's formula with `now()` read at the moment the
sleep duration is computed — the clock then shows 160 — gives
`max(0, 161 - 160) = 1`. -/
theorem c4_counterexample :
    cycleStep 100 (fun _ => 160) [jobShA]
        = Except.ok (CycleResult.mk
            [({ jobShA with next_execution_timestamp := 161 }, true)] 61) ∧
      spec_sleep_duration 161 160 = 1 ∧
      (CycleResult.mk [({ jobShA with next_execution_timestamp := 161 }, true)] 61).sleep_duration
        ≠ spec_sleep_duration 161 160 :=
  ⟨by decide, by decide, by decide⟩

/-- C2: a job is dispatched in a cycle exactly when the cycle's current
time is at or past its recorded next-due timestamp (so never before it);
and in the two-job scenario with due times `t1 < t2` and start `t0 < t1`,
the first cycle dispatches nothing and sleeps exactly until `t1` (not past
`t2`), and the cycle waking at `t1` dispatches the `t1` job and not the
`t2` job. -/
theorem c2_due_gating_and_order :
    (∀ (current : Nat) (fresh : Nat → Nat) (jobs : List Job) (r : CycleResult)
        (k : Nat) (hk : k < jobs.length) (hk' : k < r.pairs.length),
        cycleStep current fresh jobs = Except.ok r →
        ((r.pairs.get ⟨k, hk'⟩).2 = true ↔
          (jobs.get ⟨k, hk⟩).next_execution_timestamp ≤ current)) ∧
    (∀ (t0 : Nat) (fresh fresh' : Nat → Nat) (j1 j2 : Job) (u : Nat),
        t0 < j1.next_execution_timestamp →
        j1.next_execution_timestamp < j2.next_execution_timestamp →
        convert_cron_to_timestamp j1.cron_expression (fresh' 0) = some u →
        cycleStep t0 fresh [j1, j2]
            = Except.ok ⟨[(j1, false), (j2, false)],
                max 0 ((j1.next_execution_timestamp : Int) - (t0 : Int))⟩ ∧
          t0 + (max 0 ((j1.next_execution_timestamp : Int) - (t0 : Int))).toNat
              = j1.next_execution_timestamp ∧
          cycleStep j1.next_execution_timestamp fresh' [j1, j2]
            = Except.ok ⟨[({ j1 with next_execution_timestamp := u }, true), (j2, false)],
                max 0 ((min u j2.next_execution_timestamp : Int)
                  - (j1.next_execution_timestamp : Int))⟩) := by
  constructor
  · intro current fresh jobs r k hk hk' h
    obtain ⟨hsteps, -⟩ := cycleStep_ok current fresh jobs r h
    obtain ⟨hlen, hpt⟩ := stepJobs_spec current fresh jobs 0 r.pairs hsteps
    have hstep := hpt k hk hk'
    rw [Nat.zero_add] at hstep
    rcases hget : r.pairs.get ⟨k, hk'⟩ with ⟨j', b⟩
    rw [hget] at hstep
    simpa using stepJob_flag current (fresh k) _ j' b hstep
  · intro t0 fresh fresh' j1 j2 u h01 h12 hconv
    have e1 : stepJob t0 (fresh 0) j1 = Except.ok (j1, false) :=
      stepJob_not_due _ _ _ (by omega)
    have e2 : stepJob t0 (fresh (0 + 1)) j2 = Except.ok (j2, false) :=
      stepJob_not_due _ _ _ (by omega)
    have e1' : stepJob j1.next_execution_timestamp (fresh' 0) j1
        = Except.ok ({ j1 with next_execution_timestamp := u }, true) :=
      stepJob_due _ _ _ _ (Nat.le_refl _) hconv
    have e2' : stepJob j1.next_execution_timestamp (fresh' (0 + 1)) j2
        = Except.ok (j2, false) :=
      stepJob_not_due _ _ _ (by omega)
    refine ⟨?_, ?_, ?_⟩
    · simp only [cycleStep, stepJobs, e1, e2, minNextDue, List.map_cons, List.map_nil,
        List.foldl_cons, List.foldl_nil]
      rw [Nat.min_eq_left (Nat.le_of_lt h12)]
    · have hmax : max 0 ((j1.next_execution_timestamp : Int) - (t0 : Int))
          = (j1.next_execution_timestamp : Int) - (t0 : Int) :=
        max_eq_right (by omega)
      rw [hmax]
      omega
    · simp only [cycleStep, stepJobs, e1', e2', minNextDue, List.map_cons, List.map_nil,
        List.foldl_cons, List.foldl_nil]
      rw [Nat.cast_min]

/-- Witness for C2 at the two-job scenario `t0 = 5`, `t1 = 10`, `t2 = 20`. -/
theorem c2_witness :
    cycleStep 5 (fun _ => 5) [jobT1, jobT2]
        = Except.ok ⟨[(jobT1, false), (jobT2, false)],
            max 0 ((jobT1.next_execution_timestamp : Int) - (5 : Int))⟩ ∧
      5 + (max 0 ((jobT1.next_execution_timestamp : Int) - (5 : Int))).toNat
          = jobT1.next_execution_timestamp ∧
      cycleStep jobT1.next_execution_timestamp (fun _ => 10) [jobT1, jobT2]
        = Except.ok ⟨[({ jobT1 with next_execution_timestamp := 11 }, true), (jobT2, false)],
            max 0 ((min 11 jobT2.next_execution_timestamp : Int)
              - (jobT1.next_execution_timestamp : Int))⟩ :=
  c2_due_gating_and_order.2 5 (fun _ => 5) (fun _ => 10) jobT1 jobT2 11
    (by decide) (by decide) (by decide)

/-! ## Helper lemmas for the loading, dispatch and shutdown claims -/

theorem splitAux_no_sep (sep : Char) :
    ∀ (cs acc : List Char), sep ∉ cs → splitAux sep cs acc = [acc.reverse ++ cs] := by
  intro cs
  induction cs with
  | nil => intro acc _; simp [splitAux]
  | cons c cs ih =>
    intro acc h
    rw [List.mem_cons] at h
    push_neg at h
    unfold splitAux
    rw [if_neg (fun hh => h.1 hh.symm)]
    rw [ih (c :: acc) h.2]
    simp

theorem splitOnChar_no_sep (sep : Char) (cs : List Char) (h : sep ∉ cs) :
    splitOnChar sep cs = [cs] := by
  unfold splitOnChar
  rw [splitAux_no_sep sep cs [] h]
  simp

theorem load_all_valid (fresh : Nat → Nat) :
    ∀ (env : List (List Char × List Char)) (i : Nat) (js : List Job),
      load_cron_jobs fresh i env = Except.ok js →
      ∀ j ∈ js, is_valid_cron j.cron_expression = true := by
  intro env
  induction env with
  | nil =>
    intro i js h j hj
    injection h with h
    subst h
    simp at hj
  | cons kv rest ih =>
    intro i js h j hj
    rcases kv with ⟨k, v⟩
    simp only [load_cron_jobs] at h
    by_cases hks : isInitSeg rsCronKey k = true
    · rw [if_pos hks] at h
      cases hce : (parse_cron_env_variable v).cron_expression with
      | none => simp [hce] at h
      | some cronE =>
        cases hsp : (parse_cron_env_variable v).script_path_full with
        | none => simp [hce, hsp] at h
        | some spf =>
          simp only [hce, hsp] at h
          by_cases hskip :
              ((replaceAll codeScriptsPat dotDotSlash spf).isEmpty
                || !is_valid_cron cronE) = true
          · rw [if_pos hskip] at h
            exact ih (i + 1) js h j hj
          · rw [if_neg hskip] at h
            cases hct : convert_cron_to_timestamp cronE (fresh i) with
            | none => simp [hct] at h
            | some ts =>
              simp only [hct] at h
              cases hrest : load_cron_jobs fresh (i + 1) rest with
              | error e => simp [hrest] at h
              | ok restJobs =>
                simp only [hrest] at h
                injection h with h
                subst h
                rcases List.mem_cons.mp hj with hj | hj
                · subst hj
                  simp only [Bool.or_eq_true, Bool.not_eq_true'] at hskip
                  push_neg at hskip
                  simpa using hskip.2
                · exact ih (i + 1) restJobs hrest j hj
    · rw [if_neg hks] at h
      exact ih (i + 1) js h j hj

/-- One unfolding of `runLoop` when the cycle fails. -/
theorem runLoop_cycle_err (fuel : Nat) (sigAt : Option Nat) (now : Nat) (jobs : List Job)
    (e : String) (hc : cycleStep now (fun _ => now) jobs = Except.error e) :
    runLoop (fuel + 1) sigAt now jobs = Except.error e := by
  rw [runLoop.eq_2, hc]

/-- One unfolding of `runLoop` when the signal arrives during this cycle's
sleep. -/
theorem runLoop_sig_now (fuel now : Nat) (jobs : List Job) (rr : CycleResult)
    (hc : cycleStep now (fun _ => now) jobs = Except.ok rr) :
    runLoop (fuel + 1) (some 0) now jobs
      = Except.ok ⟨some 1, dispatchEvents rr.pairs, rr.pairs.map Prod.fst, now⟩ := by
  rw [runLoop.eq_2, hc]
  rfl

/-- One unfolding of `runLoop` when the signal is still `c + 1` cycles away. -/
theorem runLoop_sig_later (fuel now c : Nat) (jobs : List Job) (rr : CycleResult)
    (hc : cycleStep now (fun _ => now) jobs = Except.ok rr) :
    runLoop (fuel + 1) (some (c + 1)) now jobs
      = match runLoop fuel (some c) (now + rr.sleep_duration.toNat) (rr.pairs.map Prod.fst) with
        | Except.error e => Except.error e
        | Except.ok rest =>
          Except.ok ⟨rest.exitCode, dispatchEvents rr.pairs ++ rest.dispatched,
            rest.jobs, rest.now⟩ := by
  rw [runLoop.eq_2, hc]

/-- One unfolding of `runLoop` when no signal is pending. -/
theorem runLoop_no_sig (fuel now : Nat) (jobs : List Job) (rr : CycleResult)
    (hc : cycleStep now (fun _ => now) jobs = Except.ok rr) :
    runLoop (fuel + 1) none now jobs
      = match runLoop fuel none (now + rr.sleep_duration.toNat) (rr.pairs.map Prod.fst) with
        | Except.error e => Except.error e
        | Except.ok rest =>
          Except.ok ⟨rest.exitCode, dispatchEvents rr.pairs ++ rest.dispatched,
            rest.jobs, rest.now⟩ := by
  rw [runLoop.eq_2, hc]

/-- A signalled run exits with code 1 and performs exactly the dispatches
of the run truncated right after the signalled cycle — no further
dispatches, however much fuel remains. -/
theorem runLoop_signal_trunc :
    ∀ (c fuel now : Nat) (jobs : List Job) (r : LoopResult),
      runLoop (fuel + (c + 1)) (some c) now jobs = Except.ok r →
      r.exitCode = some 1 ∧
        ∃ r', runLoop (c + 1) none now jobs = Except.ok r' ∧
          r.dispatched = r'.dispatched := by
  intro c
  induction c with
  | zero =>
    intro fuel now jobs r h
    cases hc : cycleStep now (fun _ => now) jobs with
    | error e =>
      rw [runLoop_cycle_err fuel (some 0) now jobs e hc] at h
      exact absurd h (by simp)
    | ok rr =>
      rw [runLoop_sig_now fuel now jobs rr hc] at h
      injection h with h
      subst h
      refine ⟨rfl, ⟨none, dispatchEvents rr.pairs ++ [],
        rr.pairs.map Prod.fst, now + rr.sleep_duration.toNat⟩, ?_, by simp⟩
      rw [runLoop_no_sig 0 now jobs rr hc, runLoop.eq_1]
  | succ c ih =>
    intro fuel now jobs r h
    cases hc : cycleStep now (fun _ => now) jobs with
    | error e =>
      rw [show fuel + (c + 1 + 1) = (fuel + (c + 1)) + 1 from rfl] at h
      rw [runLoop_cycle_err (fuel + (c + 1)) (some (c + 1)) now jobs e hc] at h
      exact absurd h (by simp)
    | ok rr =>
      rw [show fuel + (c + 1 + 1) = (fuel + (c + 1)) + 1 from rfl] at h
      rw [runLoop_sig_later (fuel + (c + 1)) now c jobs rr hc] at h
      cases hr : runLoop (fuel + (c + 1)) (some c) (now + rr.sleep_duration.toNat)
          (rr.pairs.map Prod.fst) with
      | error e => rw [hr] at h; exact absurd h (by simp)
      | ok rest =>
        rw [hr] at h
        injection h with h
        subst h
        obtain ⟨hexit, r'', hr'', hdisp⟩ := ih fuel (now + rr.sleep_duration.toNat)
          (rr.pairs.map Prod.fst) rest hr
        refine ⟨hexit, ⟨r''.exitCode, dispatchEvents rr.pairs ++ r''.dispatched,
          r''.jobs, r''.now⟩, ?_, by simpa using hdisp⟩
        rw [runLoop_no_sig (c + 1) now jobs rr hc, hr'']

/-! ## Remaining claim theorems -/

/-- C5 (amended): loading skips any job definition whose cron expression
fails validation (every loaded job's expression is valid); startup is fatal
— exit code 1, never entering the scheduling loop — exactly when the
resulting job set is empty, and with at least one valid job the process
proceeds to the loop even if other definitions failed validation. -/
theorem c5_invalid_skipped_empty_fatal :
    (∀ (fresh : Nat → Nat) env, load_cron_jobs fresh 0 env = Except.ok [] →
        mainStart fresh env = MainOutcome.exited 1) ∧
    (∀ (fresh : Nat → Nat) env i js, load_cron_jobs fresh i env = Except.ok js →
        ∀ j ∈ js, is_valid_cron j.cron_expression = true) ∧
    (∀ (fresh : Nat → Nat) env j js, load_cron_jobs fresh 0 env = Except.ok (j :: js) →
        mainStart fresh env = MainOutcome.enteredLoop (j :: js)) := by
  refine ⟨?_, ?_, ?_⟩
  · intro fresh env h
    unfold mainStart
    rw [h]
  · intro fresh env i js h j hj
    exact load_all_valid fresh env i js h j hj
  · intro fresh env j js h
    unfold mainStart
    rw [h]

/-- Witness for C5 (amended): an environment whose only definition is
invalid exits with code 1; `envMixed` (one invalid, one valid definition)
enters the loop with the single valid job, whose expression is valid. -/
theorem c5_witness :
    mainStart (fun _ => 50) [("RS_CRON_A".data, "70 * * * *!/code/scripts/a.sh".data)]
        = MainOutcome.exited 1 ∧
      mainStart (fun _ => 50) envMixed = MainOutcome.enteredLoop [jobB51] ∧
      is_valid_cron jobB51.cron_expression = true :=
  ⟨c5_invalid_skipped_empty_fatal.1 (fun _ => 50) _ (by decide),
   c5_invalid_skipped_empty_fatal.2.2 (fun _ => 50) envMixed jobB51 [] (by decide),
   c5_invalid_skipped_empty_fatal.2.1 (fun _ => 50) envMixed 0 [jobB51] (by decide)
     jobB51 (by decide)⟩

/-- C5 counterexample: `envMixed` contains a definition whose cron
expression fails validation (`70 * * * *`), yet loading succeeds with the
other job and the process proceeds to the scheduling loop — the claim's
fatal-startup behaviour does not occur. -/
theorem c5_counterexample :
    is_valid_cron "70 * * * *".data = false ∧
      load_cron_jobs (fun _ => 50) 0 envMixed = Except.ok [jobB51] ∧
      mainStart (fun _ => 50) envMixed = MainOutcome.enteredLoop [jobB51] :=
  ⟨by decide, by decide, by decide⟩

/-- C7: the scheduler state produced by a wake cycle (job updates, flags,
sleep) is identical for every filesystem/dispatch oracle and every prior
world — a dispatch failure is invisible to the loop, cannot halt it, and
cannot affect any other job (each job's verdict is computed from that job
alone); and a dispatched job's recomputed next-due time is strictly after
the dispatch-time clock sample, so no retry happens before the next
natural due time. -/
theorem c7_dispatch_isolated :
    (∀ (fe : List Char → Bool) (current : Nat) (fresh : Nat → Nat)
        (jobs : List Job) (w : World),
        Except.map Prod.fst (cycleStepFull fe current fresh jobs w)
          = cycleStep current fresh jobs) ∧
    (∀ (current : Nat) (fresh : Nat → Nat) (jobs : List Job) (r : CycleResult),
        cycleStep current fresh jobs = Except.ok r →
        ∀ k (hk : k < jobs.length) (hk' : k < r.pairs.length),
          stepJob current (fresh k) (jobs.get ⟨k, hk⟩) = Except.ok (r.pairs.get ⟨k, hk'⟩) ∧
            ((r.pairs.get ⟨k, hk'⟩).2 = true →
              fresh k < (r.pairs.get ⟨k, hk'⟩).1.next_execution_timestamp)) := by
  constructor
  · intro fe current fresh jobs w
    unfold cycleStepFull
    cases h : cycleStep current fresh jobs with
    | error e => simp [Except.map]
    | ok r => simp [Except.map]
  · intro current fresh jobs r h k hk hk'
    obtain ⟨hsteps, -⟩ := cycleStep_ok current fresh jobs r h
    obtain ⟨hlen, hpt⟩ := stepJobs_spec current fresh jobs 0 r.pairs hsteps
    have hstep := hpt k hk hk'
    rw [Nat.zero_add] at hstep
    refine ⟨hstep, ?_⟩
    intro hflag
    rcases hget : r.pairs.get ⟨k, hk'⟩ with ⟨j', b⟩
    rw [hget] at hstep hflag
    simp only at hflag
    subst hflag
    obtain ⟨-, hconv, -⟩ := stepJob_ok_true current (fresh k) _ j' hstep
    simpa [hget] using (convert_some _ _ _ hconv).1

/-- Witness for C7: a concrete cycle with one overdue job behaves the same
under a finding and a failing filesystem oracle, and its per-job verdict is
the job's own `stepJob` result. -/
theorem c7_witness :
    Except.map Prod.fst (cycleStepFull (fun _ => true) 100 (fun _ => 160) [jobShA] ⟨[], []⟩)
        = cycleStep 100 (fun _ => 160) [jobShA] ∧
      Except.map Prod.fst (cycleStepFull (fun _ => false) 100 (fun _ => 160) [jobShA] ⟨[], []⟩)
        = cycleStep 100 (fun _ => 160) [jobShA] ∧
      stepJob 100 ((fun _ => 160) 0) ([jobShA].get ⟨0, by decide⟩)
        = Except.ok ((CycleResult.mk
            [({ jobShA with next_execution_timestamp := 161 }, true)] 61).pairs.get
          ⟨0, by decide⟩) :=
  ⟨c7_dispatch_isolated.1 (fun _ => true) 100 (fun _ => 160) [jobShA] ⟨[], []⟩,
   c7_dispatch_isolated.1 (fun _ => false) 100 (fun _ => 160) [jobShA] ⟨[], []⟩,
   (c7_dispatch_isolated.2 100 (fun _ => 160) [jobShA] _ (by decide) 0 (by decide)
      (by decide)).1⟩

/-- C8: the signal handler always exits with a non-zero code; a startup
that loads no valid jobs exits with code 1 (never entering the loop); and
a termination signal delivered during a sleep of the loop ends the run
with exit code 1 and exactly the dispatches of the cycles up to the
signal — zero further dispatches afterwards, however much longer the loop
would have run. -/
theorem c8_nonzero_exit_on_signal_and_bad_config :
    (∀ s, (signal_handler s).2 ≠ 0) ∧
    (∀ (fresh : Nat → Nat) env, load_cron_jobs fresh 0 env = Except.ok [] →
        mainStart fresh env = MainOutcome.exited 1) ∧
    (∀ (c fuel now : Nat) (jobs : List Job) (r : LoopResult),
        runLoop (fuel + (c + 1)) (some c) now jobs = Except.ok r →
        r.exitCode = some 1 ∧
          ∃ r', runLoop (c + 1) none now jobs = Except.ok r' ∧
            r.dispatched = r'.dispatched) := by
  refine ⟨?_, ?_, ?_⟩
  · intro s
    simp [signal_handler]
  · intro fresh env h
    unfold mainStart
    rw [h]
  · exact runLoop_signal_trunc

/-- Witness for C8: a run of two available cycles with the signal in the
first sleep exits 1 after dispatching only the first cycle's job. -/
theorem c8_witness :
    (signal_handler 15).2 ≠ 0 ∧
      mainStart (fun _ => 50) [] = MainOutcome.exited 1 ∧
      ((LoopResult.mk (some 1) [evOf jobShA]
          [{ jobShA with next_execution_timestamp := 101 }] 100).exitCode = some 1 ∧
        ∃ r', runLoop (0 + 1) none 100 [jobShA] = Except.ok r' ∧
          (LoopResult.mk (some 1) [evOf jobShA]
            [{ jobShA with next_execution_timestamp := 101 }] 100).dispatched
            = r'.dispatched) :=
  ⟨c8_nonzero_exit_on_signal_and_bad_config.1 15,
   c8_nonzero_exit_on_signal_and_bad_config.2.1 (fun _ => 50) [] (by decide),
   c8_nonzero_exit_on_signal_and_bad_config.2.2 0 1 100 [jobShA] _ (by decide)⟩

/-- C9: an `RS_CRON_` value without a `!` separator parses to a `None`
script path, and `load_cron_jobs` then crashes with an uncaught
`AttributeError` while rewriting the script path — unlike an invalid cron
expression (with a separator), which is merely skipped. -/
theorem c9_missing_separator_crashes :
    (∀ v : List Char, ('!' : Char) ∉ v →
        (parse_cron_env_variable v).script_path_full = none) ∧
    (∀ (fresh : Nat → Nat) (i : Nat) (k v : List Char) rest,
        isInitSeg rsCronKey k = true → ('!' : Char) ∉ v →
        load_cron_jobs fresh i ((k, v) :: rest) = Except.error attrErr) ∧
    load_cron_jobs (fun _ => 50) 0
        [("RS_CRON_A".data, "70 * * * *!/code/scripts/a.sh".data)] = Except.ok [] := by
  have hparse : ∀ v : List Char, ('!' : Char) ∉ v →
      (parse_cron_env_variable v).script_path_full = none := by
    intro v hv
    unfold parse_cron_env_variable
    rw [splitOnChar_no_sep '!' v hv]
    rfl
  refine ⟨hparse, ?_, by decide⟩
  intro fresh i k v rest hk hv
  have hcron : (parse_cron_env_variable v).cron_expression = some (trimChars v) := by
    unfold parse_cron_env_variable
    rw [splitOnChar_no_sep '!' v hv]
    rfl
  simp [load_cron_jobs, hk, hcron, hparse v hv]

/-- Witness for C9 at the concrete separatorless value `noSepValue`. -/
theorem c9_witness :
    (parse_cron_env_variable noSepValue).script_path_full = none ∧
      load_cron_jobs (fun _ => 0) 0 [("RS_CRON_X".data, noSepValue)]
        = Except.error attrErr :=
  ⟨c9_missing_separator_crashes.1 noSepValue (by decide),
   c9_missing_separator_crashes.2.1 (fun _ => 0) 0 "RS_CRON_X".data noSepValue []
     (by decide) (by decide)⟩

/-- C10: `run_script` spawns a process exactly when the script file exists
and its suffix has an interpreter in `EXTENSION_MAP` (`.sh`, `.pl`, `.py`);
a missing file or unsupported extension logs an error, spawns nothing, and
the function returns normally with the world otherwise unchanged. -/
theorem c10_run_script_guard :
    ∀ (fe : List Char → Bool) (rel full : List Char) (params : List (List Char)) (w : World),
      (fe full = false →
        run_script fe rel full params w
          = ⟨w.logs ++ [LogEntry.err ("Script not found: ".data ++ rel)], w.spawned⟩) ∧
      (∀ interp, fe full = true →
        EXTENSION_MAP.find? (fun kv => kv.1 == suffixOf full) = some interp →
        ∃ m, run_script fe rel full params w
          = ⟨w.logs ++ [LogEntry.info m], w.spawned ++ [interp.2 ++ [full] ++ params]⟩) ∧
      (fe full = true →
        EXTENSION_MAP.find? (fun kv => kv.1 == suffixOf full) = none →
        run_script fe rel full params w
          = ⟨w.logs ++ [LogEntry.err ("Unsupported script extension for script: ".data
              ++ rel)], w.spawned⟩) ∧
      ((EXTENSION_MAP.find? (fun kv => kv.1 == suffixOf full)).isSome = true ↔
        (suffixOf full = ".sh".data ∨ suffixOf full = ".pl".data ∨
          suffixOf full = ".py".data)) := by
  intro fe rel full params w
  refine ⟨?_, ?_, ?_, ?_⟩
  · intro hfe
    unfold run_script
    rw [if_neg (by simp [hfe])]
  · intro interp hfe hfind
    unfold run_script
    rw [if_pos hfe, hfind]
    have hne : (interp.2 ++ [full] ++ params).isEmpty = false := by
      cases interp.2 <;> simp [List.isEmpty]
    by_cases hp : params.isEmpty
    · refine ⟨"Running script: ".data ++ rel, ?_⟩
      rw [if_neg (by simp [hp]), if_pos (by simp [hne])]
    · refine ⟨"Running script: ".data ++ rel ++ " with parameters: ".data
        ++ joinSpaces params, ?_⟩
      rw [if_pos (by simp [hne, hp])]
  · intro hfe hfind
    unfold run_script
    rw [if_pos hfe, hfind]
    rw [if_neg (by simp [List.isEmpty]), if_neg (by simp [List.isEmpty])]
  · by_cases h1 : suffixOf full = ".sh".data
    · rw [h1]; decide
    · by_cases h2 : suffixOf full = ".pl".data
      · rw [h2]; decide
      · by_cases h3 : suffixOf full = ".py".data
        · rw [h3]; decide
        · have f1 : ((".sh".data : List Char) == suffixOf full) = false := by
            rw [beq_eq_false_iff_ne]; exact fun hh => h1 hh.symm
          have f2 : ((".pl".data : List Char) == suffixOf full) = false := by
            rw [beq_eq_false_iff_ne]; exact fun hh => h2 hh.symm
          have f3 : ((".py".data : List Char) == suffixOf full) = false := by
            rw [beq_eq_false_iff_ne]; exact fun hh => h3 hh.symm
          simp [EXTENSION_MAP, List.find?, f1, f2, f3, h1, h2, h3]

/-- Witness for C10: a missing file only logs the not-found error; a
present `.sh` file spawns `/bin/bash`. -/
theorem c10_witness :
    run_script (fun _ => false) "../a.sh".data "/code/scripts/a.sh".data [] ⟨[], []⟩
        = ⟨[] ++ [LogEntry.err ("Script not found: ".data ++ "../a.sh".data)], []⟩ ∧
      ((EXTENSION_MAP.find?
          (fun kv => kv.1 == suffixOf "/code/scripts/a.sh".data)).isSome = true ↔
        (suffixOf "/code/scripts/a.sh".data = ".sh".data ∨
          suffixOf "/code/scripts/a.sh".data = ".pl".data ∨
          suffixOf "/code/scripts/a.sh".data = ".py".data)) :=
  ⟨(c10_run_script_guard (fun _ => false) "../a.sh".data "/code/scripts/a.sh".data []
      ⟨[], []⟩).1 rfl,
   (c10_run_script_guard (fun _ => true) "../a.sh".data "/code/scripts/a.sh".data []
      ⟨[], []⟩).2.2.2⟩

end Crondock
